import Mathlib

/-!
Shallow embedding of `process_dji_previews.py`: path manipulation helpers
(os.path), the sidecar-marker regex search, the decoded-telemetry field
lookup, and the effectful batch pipeline (probe, classify, resize, LUT),
modelled in an exception-plus-trace style where every spawned subprocess
leaves an `Event` in the trace and every uncaught Python exception is an
`Except.error`.
-/

namespace DjiPreviews

/-- os.path.basename for POSIX paths, on character lists: the part of the
path after the last slash. -/
def basenameL (l : List Char) : List Char :=
  (l.reverse.takeWhile (fun c => c != '/')).reverse

/-- os.path.basename on strings. -/
def basename (p : String) : String := String.mk (basenameL p.data)

/-- The root part of os.path.splitext applied to a slash-free name: drop
the extension at the last dot, unless every character strictly before that
dot is itself a dot (CPython genericpath behaviour, so ".bashrc" keeps its
name). -/
def removeExtL (n : List Char) : List Char :=
  match n.reverse.dropWhile (fun c => c != '.') with
  | [] => n
  | _ :: bfr => if bfr.any (fun c => c != '.') then bfr.reverse else n

/-- os.path.splitext(os.path.basename(file))[0], as in the source. -/
def get_filename_without_extension (file : String) : String :=
  String.mk (removeExtL (basenameL file.data))

/-- os.path.dirname for POSIX paths: everything up to the last slash, with
trailing slashes stripped unless the head consists only of slashes. -/
def dirname (p : String) : String :=
  let l := p.data
  let tailLen := (l.reverse.takeWhile (fun c => c != '/')).length
  let head := l.take (l.length - tailLen)
  if head.isEmpty || head.all (fun c => c == '/') then String.mk head
  else String.mk (head.reverse.dropWhile (fun c => c == '/')).reverse

/-- os.path.join of two POSIX path components. -/
def joinPath (a b : String) : String :=
  if b.data.head? = some '/' then b
  else if a.data.isEmpty || a.data.getLast? = some '/' then a ++ b
  else a ++ "/" ++ b

/-- Python str.lower restricted to ASCII, the only case exercised here. -/
def pyLower (s : String) : String := String.mk (s.data.map Char.toLower)

/-- Python str.endswith. -/
def strEndsWith (s suf : String) : Bool := suf.data.isSuffixOf s.data

/-- Python substring membership test, sub in s. -/
def listContains (sub : List Char) : List Char → Bool
  | [] => sub.isEmpty
  | c :: rest => sub.isPrefixOf (c :: rest) || listContains sub rest

/-- The literal part of the sidecar marker pattern from
get_color_mode_from_subs. -/
def markerHeader : List Char := "[color_md : ".data

/-- The lazy capture group of the marker pattern: capture characters up to
the first closing bracket; a newline before any closing bracket makes the
match fail at this start position, since the regex dot does not match a
newline. -/
def matchAfterColon : List Char → Option (List Char)
  | [] => none
  | c :: rest =>
    if c = ']' then some []
    else if c = '\n' then none
    else (matchAfterColon rest).map (fun l => c :: l)

/-- re.search for the marker pattern: try each start position from the
left, returning the capture of the first position that matches. -/
def findColorMd : List Char → Option (List Char)
  | [] => none
  | c :: rest =>
    if markerHeader.isPrefixOf (c :: rest) then
      match matchAfterColon ((c :: rest).drop markerHeader.length) with
      | some cap => some cap
      | none => findColorMd rest
    else findColorMd rest

/-- JSON values as produced by json.loads of the blackboxprotobuf
output. -/
inductive Json where
  | null
  | jbool (b : Bool)
  | num (n : Int)
  | str (s : String)
  | arr (elems : List Json)
  | obj (fields : List (String × Json))

/-- Python dict subscript on a decoded JSON value: only an object can be
indexed by a string key; on anything else the subscript raises, which the
caller's bare except turns into the default mode. -/
def jsonField (v : Json) (k : String) : Option Json :=
  match v with
  | .obj fields => List.lookup k fields
  | _ => none

/-- The nested access message 2, 2, 3, 1 from
get_color_mode_from_data_stream. -/
def jsonAt2231 (msg : Json) : Option Json :=
  (((jsonField msg "2").bind (fun v => jsonField v "2")).bind
      (fun v => jsonField v "3")).bind (fun v => jsonField v "1")

/-- Python equality between a decoded JSON value and an integer literal. -/
def jsonEqNum (v : Json) (n : Int) : Bool :=
  match v with
  | .num m => m == n
  | _ => false

/-- The try block of get_color_mode_from_data_stream: look the code up at
path 2.2.3.1 and map it to a mode name; any lookup failure is caught by
the bare except and yields "default". -/
def colorModeFromMessage (msg : Json) : String :=
  match jsonAt2231 msg with
  | none => "default"
  | some code =>
    if jsonEqNum code 9 then "hlog"
    else if jsonEqNum code 19 then "dlog_m"
    else if jsonEqNum code 2 then "d_log"
    else "default"

/-- Module-level constant temp_dir. -/
def temp_dir : String := "temp"

/-- Module-level constant convertable_color_modes. -/
def convertable_color_modes : List String := ["d_log"]

/-- Module-level constant intermediate_video_bitrate. -/
def intermediate_video_bitrate : String := "30M"

/-- Module-level constant final_video_bitrate. -/
def final_video_bitrate : String := "10M"

/-- Module-level constant video_preview_file_suffix. -/
def video_preview_file_suffix : String := "_preview"

/-- Module-level constant output_extension. -/
def output_extension : String := ".mp4"

/-- get_bin_filename from the source. -/
def get_bin_filename (file sfx : String) : String :=
  get_filename_without_extension file ++ "_" ++ sfx ++ ".bin"

/-- get_preview_filename from the source. -/
def get_preview_filename (file : String) : String :=
  get_filename_without_extension file ++ video_preview_file_suffix ++ output_extension

/-- One spawned external-tool subprocess. -/
inductive Event where
  | probe (file : String)
  | demux (file outp : String)
  | resizeCall (inp outp bitrate : String)
  | lutCall (inp outp lutf : String)
deriving DecidableEq, Repr

/-- Python exceptions raised by the embedded fragments. -/
inductive PyErr where
  | calledProcessError
  | fileNotFoundError
  | decodeError
deriving DecidableEq, Repr

/-- Result of an effectful fragment: an exception-or-value, together with
the subprocess events already performed; events are kept even when an
exception is raised. -/
abbrev M (α : Type) := Except PyErr α × List Event

/-- Value with no events. -/
def M.pure {α : Type} (a : α) : M α := (.ok a, [])

/-- Sequencing: an exception short-circuits, traces accumulate. -/
def M.bind {α β : Type} (m : M α) (f : α → M β) : M β :=
  match m with
  | (.error e, t) => (.error e, t)
  | (.ok a, t) => ((f a).1, t ++ (f a).2)

/-- Python try-except-pass around a fragment, with a default result. -/
def tryPass {α : Type} (m : M α) (d : α) : M α :=
  match m with
  | (.error _, t) => (.ok d, t)
  | (.ok a, t) => (.ok a, t)

/-- The ambient machine for one run: filesystem facts and the outcomes of
the external-tool invocations. -/
structure Env where
  pathExists : String → Bool
  fileText : String → String
  walk : String → List (String × String)
  probeResult : String → Option (List (String × String))
  demuxOk : String → Bool
  decodeResult : String → Option Json
  resizeRunOk : String → String → Bool
  lutRunOk : String → String → Bool
  copyLutOk : Bool
  rmtreeSetupOk : Bool
  rmtreeLutOk : Bool
  rmtreeTvdOk : Bool

/-- apply_lut: raises FileNotFoundError if the LUT is missing, otherwise
spawns one ffmpeg process which raises CalledProcessError on non-zero
exit. -/
def apply_lut (env : Env) (input_file output_file lut_file : String) : M Unit :=
  if env.pathExists lut_file then
    ((if env.lutRunOk input_file output_file then Except.ok ()
      else Except.error PyErr.calledProcessError),
     [Event.lutCall input_file output_file lut_file])
  else (Except.error PyErr.fileNotFoundError, [])

/-- resize: spawns one ffmpeg process which raises CalledProcessError on
non-zero exit. -/
def resize (env : Env) (input_file output_file bitrate : String) : M Unit :=
  ((if env.resizeRunOk input_file output_file then Except.ok ()
    else Except.error PyErr.calledProcessError),
   [Event.resizeCall input_file output_file bitrate])

/-- get_color_mode_from_subs: read the sidecar .srt next to the file and
search it for the marker; none when the sidecar or the marker is
missing. -/
def get_color_mode_from_subs (env : Env) (file : String) : Option String :=
  let srt_file := joinPath (dirname file) (get_filename_without_extension file ++ ".srt")
  if env.pathExists srt_file then
    (findColorMd (env.fileText srt_file).data).map (fun l => String.mk l)
  else none

/-- get_color_mode_from_data_stream: demux the first data stream into the
temp video directory (one ffmpeg subprocess, raising on non-zero exit),
decode the blob (raising on a decode failure), then map the field at path
2.2.3.1 through the try block. Only the field lookup is inside the
try. -/
def get_color_mode_from_data_stream (env : Env) (tvd file : String) : M String :=
  let intermediate_file := joinPath tvd (get_bin_filename file "0")
  ((if env.demuxOk file then
      match env.decodeResult file with
      | none => Except.error PyErr.decodeError
      | some msg => Except.ok (colorModeFromMessage msg)
    else Except.error PyErr.calledProcessError),
   [Event.demux file intermediate_file])

/-- get_video_metadata followed by the format-tags accesses at the call
site: one ffprobe subprocess; a non-zero exit or missing format tags
raises. -/
def get_video_metadata (env : Env) (file_path : String) : M (List (String × String)) :=
  ((match env.probeResult file_path with
    | some tags => Except.ok tags
    | none => Except.error PyErr.calledProcessError),
   [Event.probe file_path])

/-- The device filter from line 122 of the source: an encoder tag exists
and contains the substring DJI. -/
def isSupportedDevice (tags : List (String × String)) : Bool :=
  match List.lookup "encoder" tags with
  | some v => listContains "DJI".data v.data
  | none => false

/-- The loop body of get_dji_videos_with_color_mode for one file: probe,
filter, then classify via the sidecar tier with the data-stream tier as
fallback. -/
def classify_video (env : Env) (tvd f : String) : M (List (String × String)) :=
  M.bind (get_video_metadata env f) (fun tags =>
    if isSupportedDevice tags then
      M.bind (match get_color_mode_from_subs env f with
              | some cm => M.pure cm
              | none => get_color_mode_from_data_stream env tvd f)
        (fun cm => M.pure [(f, cm)])
    else M.pure [])

/-- get_dji_videos_with_color_mode: the source loop, one file at a
time. -/
def get_dji_videos_with_color_mode (env : Env) (tvd : String) :
    List String → M (List (String × String))
  | [] => M.pure []
  | f :: rest =>
    M.bind (classify_video env tvd f) (fun h =>
      M.bind (get_dji_videos_with_color_mode env tvd rest) (fun t => M.pure (h ++ t)))

/-- get_video_files: raise if the directory is missing, otherwise keep
every walked file with a video extension whose name does not contain the
preview suffix, and, unless regeneration is requested, whose preview file
does not already exist. No subprocess is spawned here. -/
def get_video_files (env : Env) (rp : Bool) (directory : String) :
    Except PyErr (List String) :=
  if env.pathExists directory then
    Except.ok ((env.walk directory).filterMap (fun rf =>
      if (strEndsWith (pyLower rf.2) ".mp4" || strEndsWith (pyLower rf.2) ".mov")
          && !(listContains video_preview_file_suffix.data (pyLower rf.2).data) then
        if rp then some (joinPath rf.1 rf.2)
        else if env.pathExists (joinPath rf.1 (get_preview_filename rf.2)) then none
        else some (joinPath rf.1 rf.2)
      else none))
  else Except.error PyErr.fileNotFoundError

/-- The loop body of process_video_files for one classified pair: a
convertible mode runs resize into the temp video directory and then the
LUT stage to the sibling preview path, the whole under try-except-pass;
any other mode only prints. The None check on the mode is vacuous here
because classification always pairs a file with a string. -/
def process_one (env : Env) (lut_file tvd input_file color_mode : String) : M Unit :=
  let output_filename := get_preview_filename input_file
  let output_file := joinPath (dirname input_file) output_filename
  if pyLower color_mode ∈ convertable_color_modes then
    let intermediate_file := joinPath tvd output_filename
    tryPass (M.bind (resize env input_file intermediate_file intermediate_video_bitrate)
        (fun _ => apply_lut env intermediate_file output_file lut_file)) ()
  else M.pure ()

/-- The enumeration loop of process_video_files. -/
def processAll (env : Env) (lut_file tvd : String) :
    List (String × String) → M Unit
  | [] => M.pure ()
  | p :: rest =>
    M.bind (process_one env lut_file tvd p.1 p.2) (fun _ => processAll env lut_file tvd rest)

/-- process_video_files from the source. -/
def process_video_files (env : Env) (rp : Bool) (tvd directory lut_file : String) : M Unit :=
  match get_video_files env rp directory with
  | .error e => (Except.error e, [])
  | .ok files =>
    M.bind (get_dji_videos_with_color_mode env tvd files)
      (fun pairs => processAll env lut_file tvd pairs)

/-- CLI arguments of the full-resolution variant. -/
structure Args where
  lut_file : String
  regenerate_previews : Bool
  input_directory : String

/-- Observable outcome of one run of the main block: how many times each
temp directory removal was attempted, whether those removals succeeded,
whether the final Done line was printed, the process exit code, and the
subprocess trace. -/
structure RunOutcome where
  lutTeardownRuns : Nat
  tvdTeardownRuns : Nat
  lutTeardownOk : Bool
  tvdTeardownOk : Bool
  printedDone : Bool
  exitCode : Nat
  events : List Event
deriving DecidableEq, Repr

/-- The main block: stage the LUT into the temp dir (exit 1 on a copy
failure), reset the temp video directory inside the input directory (exit
1 if an existing one cannot be removed), run the batch, then remove the
two temp directories with errors only logged, and print Done. An uncaught
exception from the batch phase terminates the interpreter with exit code
1 before any teardown. -/
def mainRun (env : Env) (a : Args) : RunOutcome :=
  if env.copyLutOk then
    let lut_file := joinPath temp_dir (basename a.lut_file)
    let temp_video_dir := joinPath a.input_directory temp_dir
    if env.pathExists temp_video_dir && !env.rmtreeSetupOk then
      ⟨0, 0, true, true, false, 1, []⟩
    else
      match process_video_files env a.regenerate_previews temp_video_dir
          a.input_directory lut_file with
      | (.ok _, tr) => ⟨1, 1, env.rmtreeLutOk, env.rmtreeTvdOk, true, 0, tr⟩
      | (.error _, tr) => ⟨0, 0, true, true, false, 1, tr⟩
  else ⟨0, 0, true, true, false, 1, []⟩

/-! ### Example environments used by the claim witnesses and
counterexamples -/

/-- A baseline environment: empty filesystem, every subprocess fails,
all cleanup succeeds. -/
def exEnvBase : Env where
  pathExists := fun _ => false
  fileText := fun _ => ""
  walk := fun _ => []
  probeResult := fun _ => none
  demuxOk := fun _ => false
  decodeResult := fun _ => none
  resizeRunOk := fun _ _ => true
  lutRunOk := fun _ _ => true
  copyLutOk := true
  rmtreeSetupOk := true
  rmtreeLutOk := true
  rmtreeTvdOk := true

/-- A telemetry blob whose decoded field path 2.2.3.1 holds the integer
2. -/
def exMsg2 : Json :=
  Json.obj [("2", Json.obj [("2", Json.obj [("3", Json.obj [("1", Json.num 2)])])])]

/-- An environment whose data-stream demux and decode both succeed,
yielding the blob exMsg2. -/
def exC1Env : Env :=
  { exEnvBase with demuxOk := fun _ => true, decodeResult := fun _ => some exMsg2 }

/-- An environment with a DJI-encoded asset whose sidecar carries the
marker value banana. -/
def exC9Env : Env :=
  { exEnvBase with
    pathExists := fun s => s == "in/clip.srt",
    fileText := fun _ => "[color_md : banana]",
    probeResult := fun _ => some [("encoder", "DJI Mini 3")] }

/-- An environment where one directory holds clip.mov together with the
generated preview clip_preview.mp4. -/
def exC10Env : Env :=
  { exEnvBase with
    pathExists := fun s => s == "in" || s == "in/clip_preview.mp4",
    walk := fun _ => [("in", "clip.mov")] }

/-- An environment where every path exists and every transcode subprocess
succeeds. -/
def exC5Env : Env :=
  { exEnvBase with pathExists := fun _ => true }

/-- An environment where the resize subprocess always exits non-zero. -/
def exC6Env : Env :=
  { exEnvBase with pathExists := fun _ => true, resizeRunOk := fun _ _ => false }

/-- The events of a trace that create a file (everything except the probe,
which only reads). -/
def outputEvents (evs : List Event) : List Event :=
  evs.filter fun e =>
    match e with
    | Event.probe _ => false
    | _ => true

/-- An environment holding one unprocessed candidate video whose probe
subprocess fails. -/
def exC2Env : Env :=
  { exEnvBase with
    pathExists := fun s => s == "in",
    walk := fun _ => [("in", "clip.mp4")] }

/-- An environment with an existing but empty input directory, where both
teardown removals fail. -/
def exC2WEnv : Env :=
  { exEnvBase with
    pathExists := fun s => s == "in",
    rmtreeLutOk := false,
    rmtreeTvdOk := false }

/-- An environment holding one DJI asset classified hlog from its sidecar,
with no preview present: the run probes it but produces nothing, leaving
the directory unchanged. -/
def exC4Env : Env :=
  { exEnvBase with
    pathExists := fun s => s == "in" || s == "in/clip.srt",
    fileText := fun _ => "[color_md : hlog]",
    probeResult := fun _ => some [("encoder", "DJI")],
    walk := fun _ => [("in", "clip.mp4")] }

/-- An environment holding one source file whose preview already exists. -/
def exC4WEnv : Env :=
  { exEnvBase with
    pathExists := fun s => s == "in" || s == "in/clip_preview.mp4",
    walk := fun _ => [("in", "clip.mp4")] }

/-- An environment with two assets: one probed with a DJI encoder tag (no
sidecar, decodable data stream) and one probed with a non-DJI encoder
tag. -/
def exC8Env : Env :=
  { exEnvBase with
    probeResult := fun s =>
      if s == "in/a.mp4" then some [("encoder", "DJI X")]
      else some [("encoder", "Canon")],
    demuxOk := fun _ => true,
    decodeResult := fun _ => some (Json.obj []) }

/-! ### Helper lemmas -/

theorem takeWhile_all {α : Type} {p : α → Bool} :
    ∀ (l : List α), (∀ c ∈ l, p c = true) → l.takeWhile p = l := by
  intro l h
  induction l with
  | nil => rfl
  | cons a l ih =>
    rw [List.takeWhile_cons, if_pos (h a (List.mem_cons_self a l))]
    rw [ih (fun c hc => h c (List.mem_cons_of_mem a hc))]

theorem dropWhile_app_stop {α : Type} {p : α → Bool} :
    ∀ (l1 : List α) (x : α) (l2 : List α), (∀ c ∈ l1, p c = true) → p x = false →
      (l1 ++ x :: l2).dropWhile p = x :: l2 := by
  intro l1 x l2 h hx
  induction l1 with
  | nil => simp [List.dropWhile_cons, hx]
  | cons a l ih =>
    rw [List.cons_append, List.dropWhile_cons, if_pos (h a (List.mem_cons_self a l))]
    exact ih (fun c hc => h c (List.mem_cons_of_mem a hc))

theorem basenameL_eq_self {l : List Char} (h : '/' ∉ l) : basenameL l = l := by
  unfold basenameL
  have hall : l.reverse.takeWhile (fun c => c != '/') = l.reverse := by
    apply takeWhile_all
    intro c hc
    have hcl : c ∈ l := List.mem_reverse.mp hc
    exact bne_iff_ne.mpr (fun hh => h (by rw [← hh]; exact hcl))
  rw [hall, List.reverse_reverse]

theorem removeExtL_append {bl echars : List Char} (hb : bl ≠ []) (hbd : '.' ∉ bl)
    (he : '.' ∉ echars) :
    removeExtL (bl ++ '.' :: echars) = bl := by
  have h1 : (bl ++ '.' :: echars).reverse.dropWhile (fun c => c != '.') =
      '.' :: bl.reverse := by
    rw [List.reverse_append, List.reverse_cons, List.append_assoc, List.singleton_append]
    apply dropWhile_app_stop
    · intro c hc
      have hce : c ∈ echars := List.mem_reverse.mp hc
      exact bne_iff_ne.mpr (fun hh => he (by rw [← hh]; exact hce))
    · decide
  have h2 : bl.reverse.any (fun c => c != '.') = true := by
    obtain ⟨x, hx⟩ := List.exists_mem_of_ne_nil bl hb
    exact List.any_eq_true.mpr
      ⟨x, List.mem_reverse.mpr hx, bne_iff_ne.mpr (fun hh => hbd (by rw [← hh]; exact hx))⟩
  unfold removeExtL
  rw [h1]
  simp [h2]

theorem fwe_append_ext {b : String} {ec : List Char} (hb : b.data ≠ [])
    (hbd : '.' ∉ b.data) (hbs : '/' ∉ b.data) (hed : '.' ∉ ec) (hes : '/' ∉ ec) :
    get_filename_without_extension (b ++ String.mk ('.' :: ec)) = b := by
  unfold get_filename_without_extension
  rw [String.data_append]
  have hdata : (String.mk ('.' :: ec)).data = '.' :: ec := rfl
  rw [hdata]
  rw [basenameL_eq_self (by
    intro hmem
    rcases List.mem_append.mp hmem with h | h
    · exact hbs h
    · rcases h with _ | h
      · exact hes (by assumption)
      )]
  rw [removeExtL_append hb hbd hed]

theorem str_data_ext {s t : String} (h : s.data = t.data) : s = t := by
  cases s; cases t; exact congrArg String.mk h

theorem str_append_assoc (a b c : String) : a ++ b ++ c = a ++ (b ++ c) := by
  apply str_data_ext
  rw [String.data_append, String.data_append, String.data_append, String.data_append,
    List.append_assoc]

theorem jsonEqNum_eq_true_iff (v : Json) (n : Int) :
    jsonEqNum v n = true ↔ v = Json.num n := by
  cases v <;> simp [jsonEqNum]

theorem colorModeFromMessage_mem (msg : Json) :
    colorModeFromMessage msg ∈ (["default", "d_log", "dlog_m", "hlog"] : List String) := by
  unfold colorModeFromMessage
  cases jsonAt2231 msg with
  | none => simp
  | some code =>
    dsimp only []
    split_ifs <;> simp

theorem matchAfterColon_append {v : List Char} (hv1 : ']' ∉ v) (hv2 : '\n' ∉ v)
    (rest : List Char) : matchAfterColon (v ++ ']' :: rest) = some v := by
  induction v with
  | nil => simp [matchAfterColon]
  | cons c v ih =>
    have hc1 : ¬(c = ']') := fun h => hv1 (h ▸ List.mem_cons_self c v)
    have hc2 : ¬(c = '\n') := fun h => hv2 (h ▸ List.mem_cons_self c v)
    rw [List.cons_append]
    show (if c = ']' then some [] else if c = '\n' then none
      else (matchAfterColon (v ++ ']' :: rest)).map (fun l => c :: l)) = some (c :: v)
    rw [if_neg hc1, if_neg hc2,
      ih (fun h => hv1 (List.mem_cons_of_mem c h)) (fun h => hv2 (List.mem_cons_of_mem c h))]
    rfl

theorem findColorMd_cons (c : Char) (rest : List Char) :
    findColorMd (c :: rest) =
      if markerHeader.isPrefixOf (c :: rest) then
        match matchAfterColon ((c :: rest).drop markerHeader.length) with
        | some cap => some cap
        | none => findColorMd rest
      else findColorMd rest := rfl

theorem findColorMd_first {pre v rest : List Char} (hpre : '[' ∉ pre)
    (hv1 : ']' ∉ v) (hv2 : '\n' ∉ v) :
    findColorMd (pre ++ (markerHeader ++ (v ++ ']' :: rest))) = some v := by
  induction pre with
  | nil =>
    rw [List.nil_append]
    rw [show markerHeader ++ (v ++ ']' :: rest) =
      '[' :: ("color_md : ".data ++ (v ++ ']' :: rest)) from rfl]
    rw [findColorMd_cons]
    rw [show ('[' :: ("color_md : ".data ++ (v ++ ']' :: rest))) =
      markerHeader ++ (v ++ ']' :: rest) from rfl]
    have hp : markerHeader.isPrefixOf (markerHeader ++ (v ++ ']' :: rest)) = true :=
      List.isPrefixOf_iff_prefix.mpr (List.prefix_append _ _)
    rw [hp, if_pos rfl, List.drop_left, matchAfterColon_append hv1 hv2]
  | cons c pre ih =>
    have hc : ¬(c = '[') := fun h => hpre (h ▸ List.mem_cons_self c pre)
    rw [List.cons_append, findColorMd_cons]
    have hnp : markerHeader.isPrefixOf
        (c :: (pre ++ (markerHeader ++ (v ++ ']' :: rest)))) = false := by
      rw [show markerHeader = '[' :: "color_md : ".data from rfl]
      show (('[' == c) && _) = false
      rw [beq_eq_false_iff_ne.mpr (fun h => hc h.symm)]
      rfl
    rw [hnp]
    show findColorMd (pre ++ (markerHeader ++ (v ++ ']' :: rest))) = some v
    exact ih (fun h => hpre (List.mem_cons_of_mem c h))

theorem mem_bind_trace {α β : Type} {x : Event} {m : M α} (g : α → M β)
    (hx : x ∈ m.2) : x ∈ (M.bind m g).2 := by
  rcases m with ⟨r, t⟩
  cases r with
  | error e => exact hx
  | ok a =>
    show x ∈ t ++ (g a).2
    exact List.mem_append.mpr (Or.inl hx)

theorem bind_pure_tail_trace {α β : Type} (m : M α) (g : α → β) :
    (M.bind m (fun a => M.pure (g a))).2 = m.2 := by
  rcases m with ⟨r, t⟩
  cases r with
  | error e => rfl
  | ok a => exact List.append_nil t

theorem bind_eq_ok {α β : Type} {m : M α} {g : α → M β} {b : β} {tr : List Event}
    (h : M.bind m g = (Except.ok b, tr)) :
    ∃ a t1 t2, m = (Except.ok a, t1) ∧ g a = (Except.ok b, t2) ∧ tr = t1 ++ t2 := by
  rcases hm : m with ⟨r, t⟩
  subst hm
  cases r with
  | error e => exact absurd h (by simp [M.bind])
  | ok a =>
    rcases hg : g a with ⟨r2, t2⟩
    have h2 : (r2, t ++ t2) = (Except.ok b, tr) := by
      rw [← h]
      show (r2, t ++ t2) = ((g a).1, t ++ (g a).2)
      rw [hg]
    rw [Prod.mk.injEq] at h2
    obtain ⟨hr2, htr⟩ := h2
    exact ⟨a, t, t2, rfl, by rw [hg, hr2], htr.symm⟩

theorem classify_video_ok_spec (env : Env) (tvd f : String)
    (hd : List (String × String)) (trc : List Event)
    (hok : classify_video env tvd f = (Except.ok hd, trc)) :
    ∃ tags, env.probeResult f = some tags ∧
      ((isSupportedDevice tags = false ∧ hd = [] ∧ trc = [Event.probe f]) ∨
       (isSupportedDevice tags = true ∧ ∃ cm, hd = [(f, cm)] ∧
         ((get_color_mode_from_subs env f = some cm ∧ trc = [Event.probe f]) ∨
          (get_color_mode_from_subs env f = none ∧
            trc = [Event.probe f,
              Event.demux f (joinPath tvd (get_bin_filename f "0"))])))) := by
  cases hpr : env.probeResult f with
  | none =>
    simp only [classify_video, get_video_metadata, hpr, M.bind] at hok
    exact absurd hok (by simp)
  | some tags =>
    refine ⟨tags, rfl, ?_⟩
    by_cases hs : isSupportedDevice tags = true
    · cases hsub : get_color_mode_from_subs env f with
      | some cm =>
        simp only [classify_video, get_video_metadata, hpr, hs, hsub, if_true, M.bind,
          M.pure, List.append_nil, List.nil_append] at hok
        rw [Prod.mk.injEq] at hok
        exact Or.inr ⟨hs, cm, (Except.ok.inj hok.1).symm, Or.inl ⟨rfl, hok.2.symm⟩⟩
      | none =>
        rcases hg : get_color_mode_from_data_stream env tvd f with ⟨r, t⟩
        have ht : t = [Event.demux f (joinPath tvd (get_bin_filename f "0"))] := by
          have h2 : (get_color_mode_from_data_stream env tvd f).2 =
            [Event.demux f (joinPath tvd (get_bin_filename f "0"))] := rfl
          rw [hg] at h2
          exact h2
        subst ht
        cases r with
        | error e =>
          simp only [classify_video, get_video_metadata, hpr, hs, hsub, if_true, M.bind,
            M.pure, hg] at hok
          exact absurd hok (by simp)
        | ok cm =>
          simp only [classify_video, get_video_metadata, hpr, hs, hsub, if_true, M.bind,
            M.pure, hg, List.append_nil, List.nil_append] at hok
          rw [Prod.mk.injEq] at hok
          exact Or.inr ⟨hs, cm, (Except.ok.inj hok.1).symm, Or.inr ⟨rfl, hok.2.symm⟩⟩
    · have hsf : isSupportedDevice tags = false := by
        cases hbv : isSupportedDevice tags
        · rfl
        · exact absurd hbv hs
      simp only [classify_video, get_video_metadata, hpr, hsf, Bool.false_eq_true,
        if_false, M.bind, M.pure, List.append_nil, List.nil_append] at hok
      rw [Prod.mk.injEq] at hok
      exact Or.inl ⟨hsf, (Except.ok.inj hok.1).symm, hok.2.symm⟩

theorem gdv_cons_ok (env : Env) (tvd f : String) (rest : List String)
    (res : List (String × String)) (tr : List Event)
    (hok : get_dji_videos_with_color_mode env tvd (f :: rest) = (Except.ok res, tr)) :
    ∃ hd trc res' tr', classify_video env tvd f = (Except.ok hd, trc) ∧
      get_dji_videos_with_color_mode env tvd rest = (Except.ok res', tr') ∧
      res = hd ++ res' ∧ tr = trc ++ tr' := by
  have heq : get_dji_videos_with_color_mode env tvd (f :: rest) =
      M.bind (classify_video env tvd f) (fun hd =>
        M.bind (get_dji_videos_with_color_mode env tvd rest)
          (fun tl => M.pure (hd ++ tl))) := rfl
  rw [heq] at hok
  obtain ⟨hd, t1, t2, hcv, hrest2, htr⟩ := bind_eq_ok hok
  obtain ⟨tl, t1', t2', hrest, hpure, ht2⟩ := bind_eq_ok hrest2
  have hps : res = hd ++ tl ∧ t2' = ([] : List Event) := by
    rw [M.pure, Prod.mk.injEq] at hpure
    exact ⟨(Except.ok.inj hpure.1).symm, hpure.2.symm⟩
  refine ⟨hd, t1, tl, t1', hcv, hrest, hps.1, ?_⟩
  rw [htr, ht2, hps.2, List.append_nil]

theorem gdv_ok_spec (env : Env) (tvd : String) :
    ∀ (files : List String) (res : List (String × String)) (tr : List Event),
      get_dji_videos_with_color_mode env tvd files = (Except.ok res, tr) →
      (∀ pr ∈ res, pr.1 ∈ files ∧ ∃ tags, env.probeResult pr.1 = some tags ∧
          isSupportedDevice tags = true) ∧
      (∀ g p, Event.demux g p ∈ tr → ∃ tags, env.probeResult g = some tags ∧
          isSupportedDevice tags = true ∧ get_color_mode_from_subs env g = none) ∧
      (∀ f ∈ files, ∃ tags, env.probeResult f = some tags ∧
          (isSupportedDevice tags = true → ∃ cm, (f, cm) ∈ res)) := by
  intro files
  induction files with
  | nil =>
    intro res tr hok
    have hne : res = [] ∧ tr = [] := by
      rw [show get_dji_videos_with_color_mode env tvd [] =
        ((Except.ok [], []) : M (List (String × String))) from rfl, Prod.mk.injEq] at hok
      exact ⟨(Except.ok.inj hok.1).symm, hok.2.symm⟩
    obtain ⟨h1, h2⟩ := hne
    subst h1
    subst h2
    exact ⟨by simp, by simp, by simp⟩
  | cons f rest ih =>
    intro res tr hok
    obtain ⟨hd, trc, res', tr', hcv, hrest, hres, htr⟩ :=
      gdv_cons_ok env tvd f rest res tr hok
    obtain ⟨tags, hpr, hcases⟩ := classify_video_ok_spec env tvd f hd trc hcv
    obtain ⟨ihres, ihdemux, ihall⟩ := ih res' tr' hrest
    subst hres
    subst htr
    refine ⟨?_, ?_, ?_⟩
    · intro pr hpr2
      rcases List.mem_append.mp hpr2 with hmem | hmem
      · rcases hcases with ⟨hsf, hnil, htrc⟩ | ⟨hst, cm, hhd, hsubcase⟩
        · rw [hnil] at hmem
          exact absurd hmem (by simp)
        · rw [hhd] at hmem
          have hpr3 : pr = (f, cm) := List.mem_singleton.mp hmem
          subst hpr3
          exact ⟨List.mem_cons_self f rest, tags, hpr, hst⟩
      · obtain ⟨hm1, hm2⟩ := ihres pr hmem
        exact ⟨List.mem_cons_of_mem f hm1, hm2⟩
    · intro g p hmem
      rcases List.mem_append.mp hmem with hmem | hmem
      · rcases hcases with ⟨hsf, hnil, htrc⟩ |
          ⟨hst, cm, hhd, ⟨hsub, htrc⟩ | ⟨hsub, htrc⟩⟩
        · rw [htrc] at hmem
          exact absurd (List.mem_singleton.mp hmem) (by simp)
        · rw [htrc] at hmem
          exact absurd (List.mem_singleton.mp hmem) (by simp)
        · rw [htrc] at hmem
          rcases List.mem_cons.mp hmem with heq | hmem2
          · exact absurd heq (by simp)
          · have heq2 := List.mem_singleton.mp hmem2
            have hgf : g = f := by
              injection heq2
            subst hgf
            exact ⟨tags, hpr, hst, hsub⟩
      · exact ihdemux g p hmem
    · intro f2 hf2
      rcases List.mem_cons.mp hf2 with heqf | hmem
      · subst heqf
        refine ⟨tags, hpr, fun hst2 => ?_⟩
        rcases hcases with ⟨hsf, hnil, htrc⟩ | ⟨hst, cm, hhd, hsubcase⟩
        · rw [hsf] at hst2
          exact absurd hst2 (by simp)
        · exact ⟨cm, by rw [hhd]; simp⟩
      · obtain ⟨tags2, hpr2, himp⟩ := ihall f2 hmem
        refine ⟨tags2, hpr2, fun hst2 => ?_⟩
        obtain ⟨cm, hcm⟩ := himp hst2
        exact ⟨cm, List.mem_append.mpr (Or.inr hcm)⟩

/-! ### Claim C1 -/

/-- C1 counterexample: get_color_mode_from_data_stream does not catch an
exception raised by the demux subprocess. In an environment where the
ffmpeg demux of the data stream exits non-zero, the function propagates
CalledProcessError to its caller instead of returning "default", because
the subprocess call, the blob load and the binary decode sit outside the
try block. -/
theorem C1_counterexample :
    (get_color_mode_from_data_stream exEnvBase "t" "in/clip.mp4").1 =
      Except.error PyErr.calledProcessError := rfl

/-- C1 amended: once the demux subprocess and the binary decode have
succeeded, get_color_mode_from_data_stream never raises: it returns the
mode computed from the decoded message, and in particular any failure of
the nested field lookup is caught inside the try block and normalized to
"default". Exceptions raised by the demux subprocess or the decode itself
propagate to the caller (see the counterexample). -/
theorem C1_amended (env : Env) (tvd file : String) (msg : Json)
    (hdemux : env.demuxOk file = true) (hdecode : env.decodeResult file = some msg) :
    (get_color_mode_from_data_stream env tvd file).1 =
      Except.ok (colorModeFromMessage msg) ∧
    (jsonAt2231 msg = none →
      (get_color_mode_from_data_stream env tvd file).1 = Except.ok "default") := by
  have hmain : (get_color_mode_from_data_stream env tvd file).1 =
      Except.ok (colorModeFromMessage msg) := by
    unfold get_color_mode_from_data_stream
    rw [hdemux, if_pos rfl, hdecode]
  refine ⟨hmain, fun habs => ?_⟩
  rw [hmain]
  unfold colorModeFromMessage
  rw [habs]

/-- Concrete instantiation of the C1 amended theorem. -/
theorem C1_amended_witness :
    (get_color_mode_from_data_stream exC1Env "t" "in/clip.mp4").1 =
      Except.ok (colorModeFromMessage exMsg2) :=
  (C1_amended exC1Env "t" "in/clip.mp4" exMsg2 rfl rfl).1

/-! ### Claim C3 -/

/-- C3: for an asset classified via the embedded-stream tier (demux and
decode succeeded), the value decoded at nested field path 2.2.3.1 maps to
the returned color mode as 2 to "d_log", 9 to "hlog", 19 to "dlog_m", and
any other value, or an absent field path, to "default". -/
theorem C3_code_mapping (env : Env) (tvd file : String) (msg : Json)
    (hdemux : env.demuxOk file = true) (hdecode : env.decodeResult file = some msg) :
    (jsonAt2231 msg = some (Json.num 2) →
      (get_color_mode_from_data_stream env tvd file).1 = Except.ok "d_log") ∧
    (jsonAt2231 msg = some (Json.num 9) →
      (get_color_mode_from_data_stream env tvd file).1 = Except.ok "hlog") ∧
    (jsonAt2231 msg = some (Json.num 19) →
      (get_color_mode_from_data_stream env tvd file).1 = Except.ok "dlog_m") ∧
    (jsonAt2231 msg = none →
      (get_color_mode_from_data_stream env tvd file).1 = Except.ok "default") ∧
    (∀ v, jsonAt2231 msg = some v → v ≠ Json.num 2 → v ≠ Json.num 9 → v ≠ Json.num 19 →
      (get_color_mode_from_data_stream env tvd file).1 = Except.ok "default") := by
  have hmain : (get_color_mode_from_data_stream env tvd file).1 =
      Except.ok (colorModeFromMessage msg) := by
    unfold get_color_mode_from_data_stream
    rw [hdemux, if_pos rfl, hdecode]
  have hne : ∀ (v : Json) (n : Int), v ≠ Json.num n → jsonEqNum v n = false := by
    intro v n hv
    cases hj : jsonEqNum v n
    · rfl
    · exact absurd ((jsonEqNum_eq_true_iff v n).mp hj) hv
  refine ⟨fun h2 => ?_, fun h9 => ?_, fun h19 => ?_, fun habs => ?_, fun v hv hn2 hn9 hn19 => ?_⟩
  · rw [hmain]; unfold colorModeFromMessage; rw [h2]; rfl
  · rw [hmain]; unfold colorModeFromMessage; rw [h9]; rfl
  · rw [hmain]; unfold colorModeFromMessage; rw [h19]; rfl
  · rw [hmain]; unfold colorModeFromMessage; rw [habs]
  · rw [hmain]; unfold colorModeFromMessage; rw [hv]
    dsimp only []
    rw [hne v 9 hn9, hne v 19 hn19, hne v 2 hn2]
    rfl

/-- Concrete instantiation of the C3 theorem: a blob decoding to code 2 at
path 2.2.3.1 yields "d_log". -/
theorem C3_code_mapping_witness :
    (get_color_mode_from_data_stream exC1Env "t" "in/clip.mp4").1 =
      Except.ok "d_log" :=
  (C3_code_mapping exC1Env "t" "in/clip.mp4" exMsg2 rfl rfl).1 rfl

/-! ### Claim C9 -/

/-- C9 counterexample: the sidecar tier returns the marker token verbatim,
so classification is not confined to the closed enumeration. With a
sidecar containing the marker value banana, the classifier pairs the asset
with "banana", which matches no member of the enumeration even up to
case. -/
theorem C9_counterexample :
    get_dji_videos_with_color_mode exC9Env "t" ["in/clip.mp4"] =
      (Except.ok [("in/clip.mp4", "banana")], [Event.probe "in/clip.mp4"]) ∧
    ∀ m ∈ ["default", "d_log", "dlog_m", "hlog", "unknown"],
      pyLower "banana" ≠ pyLower m := by
  constructor
  · rfl
  · decide

/-- C9 amended: the embedded-stream tier always produces a member of the
closed set default, d_log, dlog_m, hlog; the sidecar tier instead returns
the marker token verbatim and is not confined to the enumeration (see the
counterexample). -/
theorem C9_amended (env : Env) (tvd file cm : String)
    (h : (get_color_mode_from_data_stream env tvd file).1 = Except.ok cm) :
    cm ∈ (["default", "d_log", "dlog_m", "hlog"] : List String) := by
  unfold get_color_mode_from_data_stream at h
  by_cases hd : env.demuxOk file = true
  · rw [hd, if_pos rfl] at h
    cases hdec : env.decodeResult file with
    | none => rw [hdec] at h; exact absurd h (by simp)
    | some msg =>
      rw [hdec] at h
      have : colorModeFromMessage msg = cm := by
        have := h
        simpa using this
      rw [← this]
      exact colorModeFromMessage_mem msg
  · rw [if_neg (by simpa using hd)] at h
    exact absurd h (by simp)

/-- Concrete instantiation of the C9 amended theorem. -/
theorem C9_amended_witness :
    (get_color_mode_from_data_stream exC1Env "t" "in/clip.mp4").1 =
      Except.ok "d_log" ∧
    ("d_log" : String) ∈ (["default", "d_log", "dlog_m", "hlog"] : List String) :=
  ⟨rfl, C9_amended exC1Env "t" "in/clip.mp4" "d_log" rfl⟩

/-! ### Claim C10 -/

/-- C10: for a source name with extension .mp4 or .mov in any letter case,
the derived preview filename is the source basename plus "_preview" plus
the fixed extension ".mp4"; two sources sharing a basename but differing
in extension map to the same preview name; and, concretely, the
already-processed skip check for a .mov source tests for (and here finds)
a .mp4-named preview, excluding the file. -/
theorem C10_preview_naming {b : String} (hb : b.data ≠ []) (hbd : '.' ∉ b.data)
    (hbs : '/' ∉ b.data) :
    get_preview_filename (b ++ ".mp4") = b ++ "_preview.mp4" ∧
    get_preview_filename (b ++ ".MOV") = b ++ "_preview.mp4" ∧
    get_preview_filename (b ++ ".mov") = get_preview_filename (b ++ ".mp4") ∧
    get_video_files exC10Env false "in" = Except.ok [] := by
  have hgen : ∀ ec : List Char, '.' ∉ ec → '/' ∉ ec →
      get_preview_filename (b ++ String.mk ('.' :: ec)) = b ++ "_preview.mp4" := by
    intro ec hed hes
    unfold get_preview_filename
    rw [fwe_append_ext hb hbd hbs hed hes, str_append_assoc]
    rfl
  have h1 : get_preview_filename (b ++ ".mp4") = b ++ "_preview.mp4" := by
    rw [show (".mp4" : String) = String.mk ('.' :: ['m', 'p', '4']) from rfl]
    exact hgen ['m', 'p', '4'] (by decide) (by decide)
  have h2 : get_preview_filename (b ++ ".MOV") = b ++ "_preview.mp4" := by
    rw [show (".MOV" : String) = String.mk ('.' :: ['M', 'O', 'V']) from rfl]
    exact hgen ['M', 'O', 'V'] (by decide) (by decide)
  have h3 : get_preview_filename (b ++ ".mov") = b ++ "_preview.mp4" := by
    rw [show (".mov" : String) = String.mk ('.' :: ['m', 'o', 'v']) from rfl]
    exact hgen ['m', 'o', 'v'] (by decide) (by decide)
  exact ⟨h1, h2, h3.trans h1.symm, rfl⟩

/-- Concrete instantiation of the C10 theorem at basename clip. -/
theorem C10_preview_naming_witness :
    get_preview_filename ("clip" ++ ".mp4") = "clip" ++ "_preview.mp4" ∧
    get_preview_filename ("clip" ++ ".MOV") = "clip" ++ "_preview.mp4" ∧
    get_preview_filename ("clip" ++ ".mov") = get_preview_filename ("clip" ++ ".mp4") ∧
    get_video_files exC10Env false "in" = Except.ok [] :=
  C10_preview_naming (by decide) (by decide) (by decide)

/-! ### Claim C5 -/

/-- C5: for an asset whose color mode is convertible (d_log up to case),
when both stages succeed the per-asset pipeline performs exactly two
external-tool calls, in order resize then LUT-apply; the resize stage
writes its intermediate output into the workspace directory, and the LUT
stage writes the single final output at the deterministic preview path, a
sibling of the source named basename plus "_preview" plus the fixed
output extension. -/
theorem C5_convertible_pipeline (env : Env) (lut tvd f cm : String)
    (hcm : pyLower cm ∈ convertable_color_modes)
    (hr : env.resizeRunOk f (joinPath tvd (get_preview_filename f)) = true)
    (hlf : env.pathExists lut = true)
    (hl : env.lutRunOk (joinPath tvd (get_preview_filename f))
        (joinPath (dirname f) (get_preview_filename f)) = true) :
    process_one env lut tvd f cm =
      (Except.ok (),
       [Event.resizeCall f (joinPath tvd (get_preview_filename f))
          intermediate_video_bitrate,
        Event.lutCall (joinPath tvd (get_preview_filename f))
          (joinPath (dirname f) (get_preview_filename f)) lut]) ∧
    get_preview_filename f =
      get_filename_without_extension f ++ video_preview_file_suffix ++ output_extension := by
  refine ⟨?_, rfl⟩
  simp only [process_one, resize, apply_lut, tryPass, M.bind, if_pos hcm, hr, hlf, hl,
    if_true]
  rfl

/-- Concrete instantiation of the C5 theorem. -/
theorem C5_convertible_pipeline_witness :
    process_one exC5Env "temp/lut.cube" "in/temp" "in/clip.mp4" "D_Log" =
      (Except.ok (),
       [Event.resizeCall "in/clip.mp4"
          (joinPath "in/temp" (get_preview_filename "in/clip.mp4"))
          intermediate_video_bitrate,
        Event.lutCall (joinPath "in/temp" (get_preview_filename "in/clip.mp4"))
          (joinPath (dirname "in/clip.mp4") (get_preview_filename "in/clip.mp4"))
          "temp/lut.cube"]) :=
  (C5_convertible_pipeline exC5Env "temp/lut.cube" "in/temp" "in/clip.mp4" "D_Log"
    (by decide) rfl rfl rfl).1

/-! ### Claim C6 -/

/-- C6: a non-zero exit of either transcode stage is caught: the per-asset
step never raises, the batch loop processes every pair in the list so the
trace is the concatenation of the per-asset traces regardless of
failures, and a failed asset is abandoned without retry: a resize failure
leaves exactly one resize call and no LUT call, a LUT failure leaves
exactly one resize call and one LUT call. -/
theorem C6_failure_isolation (env : Env) (lut tvd : String) :
    (∀ pairs, (processAll env lut tvd pairs).1 = Except.ok () ∧
      (processAll env lut tvd pairs).2 =
        pairs.flatMap (fun p => (process_one env lut tvd p.1 p.2).2)) ∧
    (∀ f cm, (process_one env lut tvd f cm).1 = Except.ok ()) ∧
    (∀ f cm, pyLower cm ∈ convertable_color_modes →
      env.resizeRunOk f (joinPath tvd (get_preview_filename f)) = false →
      (process_one env lut tvd f cm).2 =
        [Event.resizeCall f (joinPath tvd (get_preview_filename f))
          intermediate_video_bitrate]) ∧
    (∀ f cm, pyLower cm ∈ convertable_color_modes →
      env.resizeRunOk f (joinPath tvd (get_preview_filename f)) = true →
      env.pathExists lut = true →
      env.lutRunOk (joinPath tvd (get_preview_filename f))
        (joinPath (dirname f) (get_preview_filename f)) = false →
      (process_one env lut tvd f cm).2 =
        [Event.resizeCall f (joinPath tvd (get_preview_filename f))
          intermediate_video_bitrate,
         Event.lutCall (joinPath tvd (get_preview_filename f))
           (joinPath (dirname f) (get_preview_filename f)) lut]) := by
  have htry : ∀ m : M Unit, (tryPass m ()).1 = Except.ok () := by
    intro m
    rcases m with ⟨r, t⟩
    cases r with
    | error e => rfl
    | ok a => cases a; rfl
  have hone : ∀ f cm, (process_one env lut tvd f cm).1 = Except.ok () := by
    intro f cm
    simp only [process_one]
    by_cases hcm : pyLower cm ∈ convertable_color_modes
    · rw [if_pos hcm]
      exact htry _
    · rw [if_neg hcm]; rfl
  refine ⟨?_, hone, fun f cm hcm hres => ?_, fun f cm hcm hres hlf hl => ?_⟩
  · intro pairs
    induction pairs with
    | nil => exact ⟨rfl, rfl⟩
    | cons p rest ih =>
      have h1 := hone p.1 p.2
      rcases hm : process_one env lut tvd p.1 p.2 with ⟨r, t⟩
      rw [hm] at h1
      have hr : r = Except.ok () := h1
      subst hr
      constructor
      · show (M.bind (process_one env lut tvd p.1 p.2)
          (fun _ => processAll env lut tvd rest)).1 = Except.ok ()
        rw [hm]
        show (processAll env lut tvd rest).1 = Except.ok ()
        exact ih.1
      · show (M.bind (process_one env lut tvd p.1 p.2)
          (fun _ => processAll env lut tvd rest)).2 =
            (p :: rest).flatMap (fun q => (process_one env lut tvd q.1 q.2).2)
        rw [List.flatMap_cons, hm]
        show t ++ (processAll env lut tvd rest).2 =
          t ++ rest.flatMap (fun q => (process_one env lut tvd q.1 q.2).2)
        rw [ih.2]
  · simp only [process_one, resize, apply_lut, tryPass, M.bind, if_pos hcm, hres,
      if_false]
    rfl
  · simp only [process_one, resize, apply_lut, tryPass, M.bind, if_pos hcm, hres, hlf,
      hl, if_true, if_false]
    rfl

/-- Concrete instantiation of the C6 theorem: with the resize stage
failing for every asset, the batch still completes and both assets in the
list are attempted, each leaving exactly one resize call and no retry. -/
theorem C6_failure_isolation_witness :
    (processAll exC6Env "temp/lut.cube" "in/temp"
      [("in/a.mp4", "d_log"), ("in/b.mp4", "d_log")]).1 = Except.ok () ∧
    (process_one exC6Env "temp/lut.cube" "in/temp" "in/a.mp4" "d_log").2 =
      [Event.resizeCall "in/a.mp4"
        (joinPath "in/temp" (get_preview_filename "in/a.mp4"))
        intermediate_video_bitrate] :=
  ⟨((C6_failure_isolation exC6Env "temp/lut.cube" "in/temp").1
      [("in/a.mp4", "d_log"), ("in/b.mp4", "d_log")]).1,
   (C6_failure_isolation exC6Env "temp/lut.cube" "in/temp").2.2.1
      "in/a.mp4" "d_log" (by decide) rfl⟩

/-! ### Claim C2 -/

/-- C2 counterexample: workspace teardown is not performed on every exit
path. In a run whose only asset makes the probe subprocess fail, the
uncaught CalledProcessError aborts the interpreter: neither temp
directory is removed, "Done!" is never printed, and the exit status is
non-zero — there is no try/finally around the batch phase. -/
theorem C2_counterexample :
    mainRun exC2Env ⟨"lut.cube", false, "in"⟩ =
      ⟨0, 0, true, true, false, 1, [Event.probe "in/clip.mp4"]⟩ ∧
    (mainRun exC2Env ⟨"lut.cube", false, "in"⟩).lutTeardownRuns = 0 ∧
    (mainRun exC2Env ⟨"lut.cube", false, "in"⟩).tvdTeardownRuns = 0 ∧
    (mainRun exC2Env ⟨"lut.cube", false, "in"⟩).printedDone = false := by
  exact ⟨rfl, rfl, rfl, rfl⟩

/-- C2 amended: whenever the batch phase returns normally — which it does
even when individual assets fail to transcode, those exceptions being
swallowed per asset — each temp directory removal is attempted exactly
once, "Done!" is printed and the exit status is 0, for every environment,
in particular regardless of whether the removals themselves succeed
(deletion errors are only logged). An uncaught exception in the batch
phase instead aborts the run with no teardown (see the
counterexample). -/
theorem C2_teardown_on_completion (env : Env) (a : Args)
    (hcopy : env.copyLutOk = true)
    (hsetup : env.pathExists (joinPath a.input_directory temp_dir) = false ∨
      env.rmtreeSetupOk = true)
    (hbatch : (process_video_files env a.regenerate_previews
        (joinPath a.input_directory temp_dir) a.input_directory
        (joinPath temp_dir (basename a.lut_file))).1 = Except.ok ()) :
    (mainRun env a).lutTeardownRuns = 1 ∧ (mainRun env a).tvdTeardownRuns = 1 ∧
    (mainRun env a).printedDone = true ∧ (mainRun env a).exitCode = 0 := by
  have hcond : (env.pathExists (joinPath a.input_directory temp_dir) &&
      !env.rmtreeSetupOk) = false := by
    rcases hsetup with h | h
    · rw [h]; rfl
    · rw [h]; simp
  rcases hp : process_video_files env a.regenerate_previews
      (joinPath a.input_directory temp_dir) a.input_directory
      (joinPath temp_dir (basename a.lut_file)) with ⟨r, t⟩
  rw [hp] at hbatch
  have hr : r = Except.ok () := hbatch
  subst hr
  have hmain : mainRun env a = ⟨1, 1, env.rmtreeLutOk, env.rmtreeTvdOk, true, 0, t⟩ := by
    simp only [mainRun, hcopy, hcond, hp, if_true, Bool.false_eq_true, if_false]
  rw [hmain]
  exact ⟨rfl, rfl, rfl, rfl⟩

/-- Concrete instantiation of the C2 amended theorem, in an environment
where both teardown removals fail: they are still attempted exactly once
and the run still exits 0 after printing "Done!". -/
theorem C2_teardown_witness :
    (mainRun exC2WEnv ⟨"lut.cube", false, "in"⟩).lutTeardownRuns = 1 ∧
    (mainRun exC2WEnv ⟨"lut.cube", false, "in"⟩).tvdTeardownRuns = 1 ∧
    (mainRun exC2WEnv ⟨"lut.cube", false, "in"⟩).printedDone = true ∧
    (mainRun exC2WEnv ⟨"lut.cube", false, "in"⟩).exitCode = 0 :=
  C2_teardown_on_completion exC2WEnv ⟨"lut.cube", false, "in"⟩ rfl (Or.inl rfl) rfl

/-! ### Claim C4 -/

/-- C4 amended: a source file whose matching preview exists is excluded
from the processing list (every admitted path stems from a walk entry
whose preview is missing), and when every candidate's preview exists the
processing list is empty and the batch performs no probe, classification
or transcode call at all. The idempotence consequence in the original
claim does not hold: assets that yield no preview are re-probed on every
run (see the counterexample). -/
theorem C4_skip_before_probe (env : Env) (tvd d lut : String) (res : List String)
    (hok : get_video_files env false d = Except.ok res) :
    (∀ p ∈ res, ∃ e ∈ env.walk d, p = joinPath e.1 e.2 ∧
        env.pathExists (joinPath e.1 (get_preview_filename e.2)) = false) ∧
    ((∀ e ∈ env.walk d, env.pathExists (joinPath e.1 (get_preview_filename e.2)) = true) →
      res = [] ∧ process_video_files env false tvd d lut = (Except.ok (), [])) := by
  have hd : env.pathExists d = true := by
    by_cases hdt : env.pathExists d = true
    · exact hdt
    · unfold get_video_files at hok
      rw [if_neg hdt] at hok
      exact absurd hok (by simp)
  unfold get_video_files at hok
  rw [if_pos hd] at hok
  injection hok with hres
  constructor
  · intro p hp
    rw [← hres] at hp
    rcases List.mem_filterMap.mp hp with ⟨e, he, hFe⟩
    refine ⟨e, he, ?_⟩
    by_cases hcand : ((strEndsWith (pyLower e.2) ".mp4" || strEndsWith (pyLower e.2) ".mov")
        && !(listContains video_preview_file_suffix.data (pyLower e.2).data)) = true
    · rw [if_pos hcand] at hFe
      rw [if_neg (by simp)] at hFe
      by_cases hprev : env.pathExists (joinPath e.1 (get_preview_filename e.2)) = true
      · rw [if_pos hprev] at hFe
        exact absurd hFe (by simp)
      · rw [if_neg hprev] at hFe
        injection hFe with hpp
        refine ⟨hpp.symm, ?_⟩
        simp only [Bool.not_eq_true] at hprev
        exact hprev
    · rw [if_neg hcand] at hFe
      exact absurd hFe (by simp)
  · intro hall
    have hnil : res = [] := by
      rw [← hres]
      apply List.filterMap_eq_nil_iff.mpr
      intro e he
      by_cases hcand : ((strEndsWith (pyLower e.2) ".mp4" || strEndsWith (pyLower e.2) ".mov")
          && !(listContains video_preview_file_suffix.data (pyLower e.2).data)) = true
      · rw [if_pos hcand, if_neg (by simp), if_pos (hall e he)]
      · rw [if_neg hcand]
    refine ⟨hnil, ?_⟩
    have hfiles : get_video_files env false d = Except.ok [] := by
      unfold get_video_files
      rw [if_pos hd, hres, hnil]
    unfold process_video_files
    rw [hfiles]
    rfl

/-- Concrete instantiation of the C4 amended theorem: a directory holding
one source file together with its preview yields an empty processing list
and a batch phase with an empty subprocess trace. -/
theorem C4_skip_witness :
    process_video_files exC4WEnv false "in/temp" "in" "temp/lut.cube" =
      (Except.ok (), []) :=
  ((C4_skip_before_probe exC4WEnv "in/temp" "in" "temp/lut.cube" [] rfl).2
    (by decide)).2

/-- C4 counterexample: the claimed consequence — a second run on an
unchanged directory performs no additional external-tool invocations — is
false. A directory with one DJI asset classified hlog yields a run that
writes no file at all (no transcode or demux event, so the directory
really is unchanged afterwards) yet performs one probe invocation; a
second run over the identical directory is this very same run, so it
again performs one probe invocation rather than zero. -/
theorem C4_counterexample :
    mainRun exC4Env ⟨"lut.cube", false, "in"⟩ =
      ⟨1, 1, true, true, true, 0, [Event.probe "in/clip.mp4"]⟩ ∧
    outputEvents (mainRun exC4Env ⟨"lut.cube", false, "in"⟩).events = [] ∧
    (mainRun exC4Env ⟨"lut.cube", false, "in"⟩).events ≠ [] := by
  refine ⟨rfl, rfl, ?_⟩
  rw [show (mainRun exC4Env ⟨"lut.cube", false, "in"⟩).events =
    [Event.probe "in/clip.mp4"] from rfl]
  simp

/-! ### Claim C7 -/

/-- C7: for a DJI-filtered asset, when its sidecar .srt exists and its
text contains a marker of the form [color_md : value] (stated for the
first marker: the text before it has no opening bracket, and the value
has no closing bracket and no newline), classification returns the
captured value verbatim and the embedded-stream fallback is not invoked —
the classification trace is exactly the one probe, with no demux event.
When the sidecar is missing, or exists but contains no marker, the
embedded-stream fallback is invoked: a demux event appears in the
trace. -/
theorem C7_sidecar_tiering (env : Env) (tvd f : String) (tags : List (String × String))
    (hp : env.probeResult f = some tags) (hdji : isSupportedDevice tags = true) :
    (∀ pre v rest,
      env.pathExists (joinPath (dirname f)
        (get_filename_without_extension f ++ ".srt")) = true →
      (env.fileText (joinPath (dirname f)
        (get_filename_without_extension f ++ ".srt"))).data =
          pre ++ (markerHeader ++ (v ++ ']' :: rest)) →
      '[' ∉ pre → ']' ∉ v → '\n' ∉ v →
      get_dji_videos_with_color_mode env tvd [f] =
        (Except.ok [(f, String.mk v)], [Event.probe f])) ∧
    (env.pathExists (joinPath (dirname f)
        (get_filename_without_extension f ++ ".srt")) = false →
      Event.demux f (joinPath tvd (get_bin_filename f "0")) ∈
        (get_dji_videos_with_color_mode env tvd [f]).2) ∧
    (∀ srtText,
      env.pathExists (joinPath (dirname f)
        (get_filename_without_extension f ++ ".srt")) = true →
      env.fileText (joinPath (dirname f)
        (get_filename_without_extension f ++ ".srt")) = srtText →
      findColorMd srtText.data = none →
      Event.demux f (joinPath tvd (get_bin_filename f "0")) ∈
        (get_dji_videos_with_color_mode env tvd [f]).2) := by
  have hdemuxMem : get_color_mode_from_subs env f = none →
      Event.demux f (joinPath tvd (get_bin_filename f "0")) ∈
        (get_dji_videos_with_color_mode env tvd [f]).2 := by
    intro hsubs
    have h1 : get_dji_videos_with_color_mode env tvd [f] =
        M.bind (classify_video env tvd f) (fun h =>
          M.bind (get_dji_videos_with_color_mode env tvd []) (fun t => M.pure (h ++ t))) :=
      rfl
    rw [h1]
    apply mem_bind_trace
    simp only [classify_video, get_video_metadata, hp, hdji, hsubs, if_true, M.bind]
    show Event.demux f (joinPath tvd (get_bin_filename f "0")) ∈
      [Event.probe f] ++ (M.bind (get_color_mode_from_data_stream env tvd f)
        (fun cm => M.pure [(f, cm)])).2
    rw [bind_pure_tail_trace (get_color_mode_from_data_stream env tvd f)
      (fun cm => [(f, cm)])]
    rw [show (get_color_mode_from_data_stream env tvd f).2 =
      [Event.demux f (joinPath tvd (get_bin_filename f "0"))] from rfl]
    simp
  have hA : ∀ cap : List Char, get_color_mode_from_subs env f = some (String.mk cap) →
      get_dji_videos_with_color_mode env tvd [f] =
        (Except.ok [(f, String.mk cap)], [Event.probe f]) := by
    intro cap hsubs
    simp only [get_dji_videos_with_color_mode, classify_video, get_video_metadata, hp,
      hdji, hsubs, if_true, M.bind, M.pure, List.append_nil, List.nil_append]
  refine ⟨fun pre v rest hex htext hpre hv1 hv2 => ?_, fun hnex => ?_,
    fun srtText hex htext hfind => ?_⟩
  · have hsubs : get_color_mode_from_subs env f = some (String.mk v) := by
      simp only [get_color_mode_from_subs]
      rw [hex, if_pos rfl, htext, findColorMd_first hpre hv1 hv2]
      rfl
    exact hA v hsubs
  · have hsubs : get_color_mode_from_subs env f = none := by
      simp only [get_color_mode_from_subs]
      rw [hnex, if_neg (by simp)]
    exact hdemuxMem hsubs
  · have hsubs : get_color_mode_from_subs env f = none := by
      simp only [get_color_mode_from_subs]
      rw [hex, if_pos rfl, htext, hfind]
      rfl
    exact hdemuxMem hsubs

/-- Concrete instantiation of the C7 theorem: a sidecar with marker value
banana short-circuits classification to that value with a single probe
and no demux. -/
theorem C7_sidecar_tiering_witness :
    get_dji_videos_with_color_mode exC9Env "t" ["in/clip.mp4"] =
      (Except.ok [("in/clip.mp4", "banana")], [Event.probe "in/clip.mp4"]) :=
  (C7_sidecar_tiering exC9Env "t" "in/clip.mp4" [("encoder", "DJI Mini 3")] rfl
      (by decide)).1
    [] "banana".data [] rfl rfl (by decide) (by decide) (by decide)

/-! ### Claim C8 -/

/-- C8: in any batch whose classification pass completes, every enumerated
candidate file is admitted to the classified list if and only if its
probed format tags contain an encoder key whose value contains the
substring DJI (case-sensitive); a file failing the filter contributes no
pair to the list and is never classified — no data-stream demux event for
it appears in the trace. -/
theorem C8_device_filter (env : Env) (tvd : String) (files : List String)
    (res : List (String × String)) (tr : List Event)
    (hok : get_dji_videos_with_color_mode env tvd files = (Except.ok res, tr)) :
    ∀ f ∈ files, ∃ tags, env.probeResult f = some tags ∧
      (isSupportedDevice tags = true → ∃ cm, (f, cm) ∈ res) ∧
      (isSupportedDevice tags = false →
        (∀ cm, (f, cm) ∉ res) ∧ ∀ p, Event.demux f p ∉ tr) := by
  obtain ⟨hres, hdemux, hall⟩ := gdv_ok_spec env tvd files res tr hok
  intro f hf
  obtain ⟨tags, hpr, himp⟩ := hall f hf
  refine ⟨tags, hpr, himp, fun hsf => ⟨?_, ?_⟩⟩
  · intro cm hmem
    obtain ⟨hmf, tags2, hpr2, hst2⟩ := hres (f, cm) hmem
    have hpr2f : env.probeResult f = some tags2 := hpr2
    rw [hpr] at hpr2f
    rw [(Option.some.inj hpr2f).symm, hsf] at hst2
    exact absurd hst2 (by simp)
  · intro p hmem
    obtain ⟨tags2, hpr2, hst2, hsub2⟩ := hdemux f p hmem
    rw [hpr] at hpr2
    rw [(Option.some.inj hpr2).symm, hsf] at hst2
    exact absurd hst2 (by simp)

/-- Concrete instantiation of the C8 theorem: in a two-asset batch, the
DJI-tagged asset is admitted (and classified by fallback to the default
mode) while the non-DJI asset contributes no pair. -/
theorem C8_device_filter_witness :
    (∃ cm, (("in/a.mp4" : String), cm) ∈ [(("in/a.mp4" : String), ("default" : String))]) ∧
    (∀ cm, (("in/b.mp4" : String), cm) ∉ [(("in/a.mp4" : String), ("default" : String))]) := by
  have h := C8_device_filter exC8Env "t" ["in/a.mp4", "in/b.mp4"]
    [("in/a.mp4", "default")]
    [Event.probe "in/a.mp4",
      Event.demux "in/a.mp4" (joinPath "t" (get_bin_filename "in/a.mp4" "0")),
      Event.probe "in/b.mp4"] rfl
  obtain ⟨tagsa, hpra, himpa, _⟩ := h "in/a.mp4" (by simp)
  obtain ⟨tagsb, hprb, _, hnegb⟩ := h "in/b.mp4" (by simp)
  constructor
  · apply himpa
    have h2 : exC8Env.probeResult "in/a.mp4" = some [("encoder", "DJI X")] := rfl
    rw [hpra] at h2
    rw [(Option.some.inj h2)]
    decide
  · intro cm
    refine (hnegb ?_).1 cm
    have h2 : exC8Env.probeResult "in/b.mp4" = some [("encoder", "Canon")] := rfl
    rw [hprb] at h2
    rw [(Option.some.inj h2)]
    decide

end DjiPreviews
